import Mathlib

/-!
Verification model of the FreeRTOS coreMQTT agent demo
(`lib/FreeRTOS/freertos-plus-mqtt/freertos_mqtt_agent.h`).

The repository ships only the header, which fixes the public surface:
the capacity constants, the handle type, the enqueue-style API signatures
(notably `MQTTAgent_ProcessLoop`, which takes no timeout argument), and the
documented behaviour of `MQTTAgent_CommandLoop` (re-adds a process-loop
command every time one is processed; exits the loop after an unsubscribe
operation; returns the failing context, or NULL on graceful termination).
The implementation file `freertos_mqtt_agent.c` is not part of the sources,
so the bodies of the operations are modelled from the specification, faithful
to the header wherever the header speaks.
-/

namespace MQTTAgent

/-- From the header: the maximum number of MQTT connections that can be tracked. -/
def MAX_CONNECTIONS : Nat := 2

/-- From the header: the maximum number of pending acknowledgments to track for a
single connection. -/
def PENDING_ACKS_MAX_SIZE : Nat := 20

/-- From the header: the maximum number of subscriptions to track for a single
connection. -/
def SUBSCRIPTIONS_MAX_COUNT : Nat := 10

/-- From the header: timeout for the MQTT_ProcessLoop function in milliseconds.
The demo uses no delay for the process loop, so the value is 0. -/
def MQTT_AGENT_PROCESS_LOOP_TIMEOUT_MS : Nat := 0

/-- Modelled from the spec: the protocol client's closed status set
(success / no-memory / bad-parameter / send-failed / receive-failed /
no-data-available), plus the not-found style status the spec prescribes for
operations referencing an unknown or freed handle.  The concrete enum lives in
the coreMQTT library, outside this repository. -/
inductive MQTTStatus where
  | Success
  | NoMemory
  | BadParameter
  | SendFailed
  | RecvFailed
  | NoDataAvailable
  | NotFound
deriving DecidableEq, Repr

/-- Modelled from the spec: result of the Pending Acknowledgment Tracker's
track operation (`track(handle, packetId, publishPayloadRef) -> Ok | Full`);
the tracker implementation is in the missing `freertos_mqtt_agent.c`. -/
inductive TrackResult where
  | Ok
  | Full
deriving DecidableEq, Repr

/-- Modelled from the spec: result of the tracker's acknowledge operation
(`acknowledge(handle, packetId) -> Removed | NotFound`). -/
inductive AckResult where
  | Removed
  | NotFound
deriving DecidableEq, Repr

/-- Modelled from the spec: result of the Subscription Registry's add operation
(`add(handle, filter, callback, context) -> Ok | Full | AlreadyExists`). -/
inductive AddResult where
  | Ok
  | Full
  | AlreadyExists
deriving DecidableEq, Repr

/-- Modelled from the spec: result of the registry's remove operation
(`remove(handle, filter) -> Removed | NotFound`). -/
inductive RemoveResult where
  | Removed
  | NotFound
deriving DecidableEq, Repr

/-- Modelled from the spec: a Subscription Registry entry: (topic filter string,
publish callback, callback context).  Function pointers and opaque contexts are
represented by numeric identifiers. -/
structure Subscription where
  topicFilter : String
  callback : Nat
  context : Nat
deriving DecidableEq, Repr

/-- Modelled from the spec: a Connection Slot owns one Pending-Ack set (packet
identifier paired with the original publish payload reference, kept in insertion
order) and one Subscription set, plus the default unknown-publish callback and
context registered at initialisation.  The slot struct lives in the missing
`freertos_mqtt_agent.c`. -/
structure ConnectionSlot where
  pendingAcks : List (Nat × Nat)
  subscriptions : List Subscription
  defaultCallback : Nat
  defaultContext : Nat
deriving DecidableEq, Repr

/-- A queued command, one constructor per enqueue-style API in the header.  The
fields mirror each declaration's parameters: `Command.processLoop` carries no
timeout because `MQTTAgent_ProcessLoop` declares none.  Callback pointers and
contexts are numeric identifiers; subscription info is its topic filter; publish
info is (packet identifier, QoS, payload reference). -/
inductive Command where
  | subscribe (handle : Nat) (filter : String) (pubCb pubCtx : Nat) (cb ctx : Nat)
  | unsubscribe (handle : Nat) (filter : String) (ctx cb : Nat)
  | publish (handle : Nat) (packetId qos payload : Nat) (cb ctx : Nat)
  | processLoop (handle : Nat) (ctx cb : Nat)
  | ping (handle : Nat) (ctx cb : Nat)
  | disconnect (handle : Nat) (ctx cb : Nat)
  | free (handle : Nat) (ctx cb : Nat)
  | terminate
deriving DecidableEq, Repr

/-- Modelled from the spec: global agent state — the fixed-capacity Connection
Table (`none` marks a free slot) and the command queue.  Both are private to the
agent task in the missing `freertos_mqtt_agent.c`. -/
structure AgentState where
  slots : List (Option ConnectionSlot)
  queue : List Command
deriving DecidableEq, Repr

/-- An invocation of the external Protocol Client (coreMQTT), recorded so that
theorems can speak about which wire operations the agent performed and with
which arguments. -/
inductive ClientOp where
  | publishOp (handle packetId payload : Nat)
  | subscribeOp (handle : Nat) (filter : String)
  | unsubscribeOp (handle : Nat) (filter : String)
  | processLoopOp (handle timeoutMs : Nat)
  | pingOp (handle : Nat)
  | disconnectOp (handle : Nat)
deriving DecidableEq, Repr

/-- The Protocol Client collaborator, abstracted as an oracle mapping each
requested operation to the status it returns. -/
def ClientOracle : Type := ClientOp → MQTTStatus

/-- Observable events of a run: calls into the protocol client and completion
callback invocations. -/
inductive Event where
  | clientCall (op : ClientOp) (result : MQTTStatus)
  | callback (cb ctx : Nat) (status : MQTTStatus)
deriving DecidableEq, Repr

/-- Connection Table lookup: `resolve(handle) -> slot | NotFound`; an
out-of-range handle or a freed slot yields `none`. -/
def resolveHandle (st : AgentState) (handle : Nat) : Option ConnectionSlot :=
  (st.slots.getD handle none)

/-- Store a slot value back into the Connection Table. -/
def setSlot (st : AgentState) (handle : Nat) (slot : Option ConnectionSlot) :
    AgentState :=
  { st with slots := st.slots.set handle slot }

/-- Modelled from the spec: the tracker's `track` — insert a (packetId, payload)
entry at the end, or report `Full` and leave the set unchanged when it already
holds `PENDING_ACKS_MAX_SIZE` entries.  Implemented in the missing
`freertos_mqtt_agent.c`. -/
def track (slot : ConnectionSlot) (packetId payload : Nat) :
    TrackResult × ConnectionSlot :=
  if slot.pendingAcks.length < PENDING_ACKS_MAX_SIZE then
    (TrackResult.Ok,
      { slot with pendingAcks := slot.pendingAcks ++ [(packetId, payload)] })
  else
    (TrackResult.Full, slot)

/-- Modelled from the spec: the tracker's `acknowledge` — remove the entry with
the matching packet identifier, or report `NotFound` (non-fatal) and leave the
set unchanged. -/
def acknowledge (slot : ConnectionSlot) (packetId : Nat) :
    AckResult × ConnectionSlot :=
  if slot.pendingAcks.any (fun e => e.1 == packetId) then
    (AckResult.Removed,
      { slot with pendingAcks := slot.pendingAcks.eraseP (fun e => e.1 == packetId) })
  else
    (AckResult.NotFound, slot)

/-- Modelled from the spec: the registry's `add` — reject a duplicate filter
with `AlreadyExists`, reject a full registry with `Full`, otherwise append. -/
def subAdd (slot : ConnectionSlot) (filter : String) (cb ctx : Nat) :
    AddResult × ConnectionSlot :=
  if slot.subscriptions.any (fun s => s.topicFilter == filter) then
    (AddResult.AlreadyExists, slot)
  else if slot.subscriptions.length < SUBSCRIPTIONS_MAX_COUNT then
    (AddResult.Ok,
      { slot with subscriptions := slot.subscriptions ++ [⟨filter, cb, ctx⟩] })
  else
    (AddResult.Full, slot)

/-- Modelled from the spec: the registry's `remove` — erase the entry with the
matching filter, or report `NotFound` and leave the registry unchanged. -/
def subRemove (slot : ConnectionSlot) (filter : String) :
    RemoveResult × ConnectionSlot :=
  if slot.subscriptions.any (fun s => s.topicFilter == filter) then
    (RemoveResult.Removed,
      { slot with
          subscriptions := slot.subscriptions.eraseP (fun s => s.topicFilter == filter) })
  else
    (RemoveResult.NotFound, slot)

/-- Split a character list into its `/`-separated level segments, carrying the
(reversed) characters of the current level in an accumulator. -/
def splitLevels : List Char → List Char → List (List Char)
  | [], acc => [acc.reverse]
  | c :: cs, acc =>
    if c = '/' then acc.reverse :: splitLevels cs [] else splitLevels cs (c :: acc)

/-- The `/`-separated levels of a topic or filter string. -/
def topicLevels (s : String) : List (List Char) :=
  splitLevels s.data []

/-- Modelled from the spec: MQTT topic-filter matching over `/`-separated
levels, with the standard wildcard rules — `+` matches exactly one level, `#`
matches all remaining levels (including none).  The matcher is implemented in
the missing `freertos_mqtt_agent.c`. -/
def levelsMatch : List (List Char) → List (List Char) → Bool
  | [], [] => true
  | f :: fs, [] => f == ['#'] && fs.isEmpty
  | [], _ :: _ => false
  | f :: fs, t :: ts =>
    if f == ['#'] && fs.isEmpty then true
    else (f == ['+'] || f == t) && levelsMatch fs ts

/-- Whether a topic filter matches a concrete topic name under MQTT wildcard
rules. -/
def topicMatches (filter topic : String) : Bool :=
  levelsMatch (topicLevels filter) (topicLevels topic)

/-- Modelled from the spec: the registry's `match` — the first subscription
whose filter matches the topic, as (callback, context), or `none`. -/
def matchSub (slot : ConnectionSlot) (topic : String) : Option (Nat × Nat) :=
  (slot.subscriptions.find? (fun s => topicMatches s.topicFilter topic)).map
    (fun s => (s.callback, s.context))

/-- Modelled from the spec: incoming-publish dispatch — deliver to the matching
subscription's callback, or to the connection's default unknown-publish callback
when no filter matches.  Returns the (callback, context) pair invoked, or `none`
for an unknown handle. -/
def dispatchIncomingPublish (st : AgentState) (handle : Nat) (topic : String) :
    Option (Nat × Nat) :=
  match resolveHandle st handle with
  | none => none
  | some slot =>
    match matchSub slot topic with
    | some pair => some pair
    | none => some (slot.defaultCallback, slot.defaultContext)

/-- What the dispatcher tells the command loop to do after a command: keep
going, exit gracefully (NULL return), or exit surfacing the failing
connection's handle. -/
inductive LoopSignal where
  | next
  | exitGraceful
  | exitError (handle : Nat)
deriving DecidableEq, Repr

/-- Outcome of a (fuel-bounded) run of the command loop.  `terminated` models
`MQTTAgent_CommandLoop` returning NULL; `fatalError h` models it returning the
failing context; `outOfFuel` marks a run cut short by the fuel bound. -/
inductive LoopResult where
  | terminated
  | fatalError (handle : Nat)
  | outOfFuel
deriving DecidableEq, Repr

/-- Result of dispatching one dequeued command: the updated agent state, the
events emitted while processing it, and the signal to the loop. -/
structure DispatchResult where
  state : AgentState
  events : List Event
  signal : LoopSignal
deriving DecidableEq, Repr

/-- Modelled from the spec: whether a protocol-client status reflects a
transport-fatal condition (send/receive failure), which on the PROCESS_LOOP
path makes the loop exit with the failing context. -/
def isFatal : MQTTStatus → Bool
  | MQTTStatus.SendFailed => true
  | MQTTStatus.RecvFailed => true
  | _ => false

/-- Modelled from the spec: resend, in insertion order, the original publishes
recorded in a pending-ack list, stopping at the first non-success status; part
of session resumption in the missing `freertos_mqtt_agent.c`.  Returns the
final status and the client calls performed. -/
def resendPending (client : ClientOracle) (handle : Nat) :
    List (Nat × Nat) → MQTTStatus × List Event
  | [] => (MQTTStatus.Success, [])
  | a :: rest =>
    let s := client (ClientOp.publishOp handle a.1 a.2)
    let e := Event.clientCall (ClientOp.publishOp handle a.1 a.2) s
    if s = MQTTStatus.Success then
      let r := resendPending client handle rest
      (r.1, e :: r.2)
    else
      (s, [e])

/-- Modelled from the spec: re-issue a subscribe request for each registry
entry, stopping at the first non-success status; part of session resumption in
the missing `freertos_mqtt_agent.c`. -/
def resubscribeAll (client : ClientOracle) (handle : Nat) :
    List Subscription → MQTTStatus × List Event
  | [] => (MQTTStatus.Success, [])
  | s :: rest =>
    let st := client (ClientOp.subscribeOp handle s.topicFilter)
    let e := Event.clientCall (ClientOp.subscribeOp handle s.topicFilter) st
    if st = MQTTStatus.Success then
      let r := resubscribeAll client handle rest
      (r.1, e :: r.2)
    else
      (st, [e])

/-- Modelled from the spec: `MQTTAgent_ResumeSession` (declared in the header,
implemented in the missing `freertos_mqtt_agent.c`).  With a session present it
resends every tracked publish in insertion order, aborting at the first error;
with no session present it clears the tracker and re-issues every registered
subscription, aborting at the first error.  An unknown handle is rejected with
a not-found status and no state change. -/
def resumeSession (client : ClientOracle) (st : AgentState) (handle : Nat)
    (sessionPresent : Bool) : MQTTStatus × AgentState × List Event :=
  match resolveHandle st handle with
  | none => (MQTTStatus.NotFound, st, [])
  | some slot =>
    if sessionPresent then
      let r := resendPending client handle slot.pendingAcks
      (r.1, st, r.2)
    else
      let st' := setSlot st handle (some { slot with pendingAcks := [] })
      let r := resubscribeAll client handle slot.subscriptions
      (r.1, st', r.2)

/-- Modelled from the spec: dispatch of one dequeued command by the agent loop
(the body of the missing `freertos_mqtt_agent.c`'s command processing), faithful
to the header's documentation where it speaks: a PROCESS_LOOP command calls the
protocol client with the fixed `MQTT_AGENT_PROCESS_LOOP_TIMEOUT_MS` and is
re-added every time one is processed; an unsubscribe operation makes the loop
exit; TERMINATE makes it exit gracefully.  A command whose handle does not
resolve completes with a not-found status and changes no state. -/
def dispatchCommand (client : ClientOracle) (st : AgentState) :
    Command → DispatchResult
  | Command.subscribe handle filter pubCb pubCtx cb ctx =>
    match resolveHandle st handle with
    | none => ⟨st, [Event.callback cb ctx MQTTStatus.NotFound], LoopSignal.next⟩
    | some slot =>
      let s := client (ClientOp.subscribeOp handle filter)
      let slot' := if s = MQTTStatus.Success then
          (subAdd slot filter pubCb pubCtx).2 else slot
      ⟨setSlot st handle (some slot'),
        [Event.clientCall (ClientOp.subscribeOp handle filter) s,
         Event.callback cb ctx s],
        LoopSignal.next⟩
  | Command.unsubscribe handle filter ctx cb =>
    match resolveHandle st handle with
    | none =>
      ⟨st, [Event.callback cb ctx MQTTStatus.NotFound], LoopSignal.exitGraceful⟩
    | some slot =>
      let s := client (ClientOp.unsubscribeOp handle filter)
      let slot' := if s = MQTTStatus.Success then (subRemove slot filter).2 else slot
      ⟨setSlot st handle (some slot'),
        [Event.clientCall (ClientOp.unsubscribeOp handle filter) s,
         Event.callback cb ctx s],
        LoopSignal.exitGraceful⟩
  | Command.publish handle packetId qos payload cb ctx =>
    match resolveHandle st handle with
    | none => ⟨st, [Event.callback cb ctx MQTTStatus.NotFound], LoopSignal.next⟩
    | some slot =>
      if qos = 0 then
        let s := client (ClientOp.publishOp handle packetId payload)
        ⟨st, [Event.clientCall (ClientOp.publishOp handle packetId payload) s,
              Event.callback cb ctx s], LoopSignal.next⟩
      else
        let t := track slot packetId payload
        if t.1 = TrackResult.Full then
          ⟨st, [Event.callback cb ctx MQTTStatus.NoMemory], LoopSignal.next⟩
        else
          let s := client (ClientOp.publishOp handle packetId payload)
          ⟨setSlot st handle (some t.2),
            [Event.clientCall (ClientOp.publishOp handle packetId payload) s,
             Event.callback cb ctx s],
            LoopSignal.next⟩
  | Command.processLoop handle ctx cb =>
    match resolveHandle st handle with
    | none => ⟨st, [Event.callback cb ctx MQTTStatus.NotFound], LoopSignal.next⟩
    | some _ =>
      let s := client (ClientOp.processLoopOp handle MQTT_AGENT_PROCESS_LOOP_TIMEOUT_MS)
      let st' := { st with queue := st.queue ++ [Command.processLoop handle ctx cb] }
      ⟨st',
        [Event.clientCall
            (ClientOp.processLoopOp handle MQTT_AGENT_PROCESS_LOOP_TIMEOUT_MS) s,
         Event.callback cb ctx s],
        if isFatal s then LoopSignal.exitError handle else LoopSignal.next⟩
  | Command.ping handle ctx cb =>
    match resolveHandle st handle with
    | none => ⟨st, [Event.callback cb ctx MQTTStatus.NotFound], LoopSignal.next⟩
    | some _ =>
      let s := client (ClientOp.pingOp handle)
      ⟨st, [Event.clientCall (ClientOp.pingOp handle) s,
            Event.callback cb ctx s], LoopSignal.next⟩
  | Command.disconnect handle ctx cb =>
    match resolveHandle st handle with
    | none => ⟨st, [Event.callback cb ctx MQTTStatus.NotFound], LoopSignal.next⟩
    | some _ =>
      let s := client (ClientOp.disconnectOp handle)
      ⟨st, [Event.clientCall (ClientOp.disconnectOp handle) s,
            Event.callback cb ctx s], LoopSignal.next⟩
  | Command.free handle ctx cb =>
    match resolveHandle st handle with
    | none => ⟨st, [Event.callback cb ctx MQTTStatus.NotFound], LoopSignal.next⟩
    | some _ =>
      ⟨setSlot st handle none,
        [Event.callback cb ctx MQTTStatus.Success], LoopSignal.next⟩
  | Command.terminate => ⟨st, [], LoopSignal.exitGraceful⟩

/-- Modelled from the spec: `MQTTAgent_CommandLoop` (declared in the header,
implemented in the missing `freertos_mqtt_agent.c`), bounded by a fuel
parameter.  It repeatedly dequeues the front command and dispatches it; it
returns `terminated` (NULL) on graceful exit and `fatalError` with the failing
connection's handle on a transport-fatal PROCESS_LOOP error.  The returned
event list concatenates the events of the dispatched commands in order. -/
def commandLoop (client : ClientOracle) :
    Nat → AgentState → LoopResult × AgentState × List Event
  | 0, st => (LoopResult.outOfFuel, st, [])
  | Nat.succ n, st =>
    match st.queue with
    | [] => commandLoop client n st
    | c :: rest =>
      let d := dispatchCommand client { st with queue := rest } c
      match d.signal with
      | LoopSignal.next =>
        let r := commandLoop client n d.state
        (r.1, r.2.1, d.events ++ r.2.2)
      | LoopSignal.exitGraceful => (LoopResult.terminated, d.state, d.events)
      | LoopSignal.exitError h => (LoopResult.fatalError h, d.state, d.events)

/-- Modelled from the spec: producer-side enqueue into the bounded command
queue — accepted (true) and appended when below capacity, rejected (false) and
unchanged when full.  The queue length constant lives outside the header, so
the capacity is a parameter. -/
def enqueueCmd (capacity : Nat) (q : List Command) (c : Command) :
    Bool × List Command :=
  if q.length < capacity then (true, q ++ [c]) else (false, q)

/-- Enqueue a whole sequence of commands in order. -/
def enqueueAll (capacity : Nat) (q : List Command) (cs : List Command) :
    List Command :=
  cs.foldl (fun acc c => (enqueueCmd capacity acc c).2) q

/-- Dequeue the front command, or `none` when the queue is empty. -/
def dequeueCmd (q : List Command) : Option (Command × List Command) :=
  match q with
  | [] => none
  | c :: rest => some (c, rest)

/-- Repeatedly dequeue until the queue is empty, returning the commands in
dequeue order. -/
def drainQueue : List Command → List Command
  | [] => []
  | c :: rest => c :: drainQueue rest

/-- The handle a command refers to (`none` for TERMINATE, which has no
target connection). -/
def cmdHandle : Command → Option Nat
  | Command.subscribe h _ _ _ _ _ => some h
  | Command.unsubscribe h _ _ _ => some h
  | Command.publish h _ _ _ _ _ => some h
  | Command.processLoop h _ _ => some h
  | Command.ping h _ _ => some h
  | Command.disconnect h _ _ => some h
  | Command.free h _ _ => some h
  | Command.terminate => none

/-- The completion callback identifier carried by a command (0 for
TERMINATE, which has none). -/
def cmdCb : Command → Nat
  | Command.subscribe _ _ _ _ cb _ => cb
  | Command.unsubscribe _ _ _ cb => cb
  | Command.publish _ _ _ _ cb _ => cb
  | Command.processLoop _ _ cb => cb
  | Command.ping _ _ cb => cb
  | Command.disconnect _ _ cb => cb
  | Command.free _ _ cb => cb
  | Command.terminate => 0

/-- The completion callback context carried by a command (0 for TERMINATE). -/
def cmdCtx : Command → Nat
  | Command.subscribe _ _ _ _ _ ctx => ctx
  | Command.unsubscribe _ _ ctx _ => ctx
  | Command.publish _ _ _ _ _ ctx => ctx
  | Command.processLoop _ ctx _ => ctx
  | Command.ping _ ctx _ => ctx
  | Command.disconnect _ ctx _ => ctx
  | Command.free _ ctx _ => ctx
  | Command.terminate => 0

/-- Whether a command is a PUBLISH command. -/
def isPublishCmd : Command → Bool
  | Command.publish _ _ _ _ _ _ => true
  | _ => false

/-- A protocol-client oracle on which every operation succeeds. -/
def okClient : ClientOracle := fun _ => MQTTStatus.Success

/-- Example slot: two pending acks in insertion order, no subscriptions. -/
def slotA : ConnectionSlot := ⟨[(1, 10), (2, 20)], [], 9, 90⟩

/-- Example state: slot 0 allocated as `slotA`, slot 1 free, empty queue. -/
def stA : AgentState := ⟨[some slotA, none], []⟩

/-- Example slot with one wildcard subscription (callback 7, context 70) and
default unknown-publish callback 9 with context 90. -/
def slotB : ConnectionSlot := ⟨[], [⟨"sensors/+/temp", 7, 70⟩], 9, 90⟩

/-- Example state around `slotB`. -/
def stB : AgentState := ⟨[some slotB, none], []⟩

/-- Example slot whose pending-ack set is at capacity (20 entries). -/
def slotFull : ConnectionSlot :=
  ⟨(List.range PENDING_ACKS_MAX_SIZE).map (fun i => (i + 1, i)), [], 9, 90⟩

/-- Example state around `slotFull`. -/
def stFull : AgentState := ⟨[some slotFull, none], []⟩

/-- Three QoS-1 PUBLISH commands used in the termination scenario. -/
def pubBatch : List Command :=
  [Command.publish 0 1 1 11 101 201,
   Command.publish 0 2 1 12 102 202,
   Command.publish 0 3 1 13 103 203]

/-- Example state whose queue holds three publishes, then TERMINATE, then one
more publish. -/
def stQ : AgentState :=
  ⟨[some slotA, none],
    pubBatch ++ Command.terminate :: [Command.publish 0 4 1 14 104 204]⟩

/-- Example state whose queue starts with an unsubscribe command followed by a
ping, with no TERMINATE anywhere. -/
def stU : AgentState :=
  ⟨[some slotA, none], [Command.unsubscribe 0 "topic" 5 6, Command.ping 0 1 2]⟩

/-- A handle that resolves has an in-range index into the Connection Table. -/
theorem resolveHandle_lt_length (st : AgentState) (h : Nat) (slot : ConnectionSlot)
    (hres : resolveHandle st h = some slot) : h < st.slots.length := by
  by_contra hge
  push_neg at hge
  unfold resolveHandle at hres
  rw [List.getD_eq_getElem?_getD, List.getElem?_eq_none hge] at hres
  simp at hres

/-- Writing a slot back at a handle that resolves makes that handle resolve to
the written value. -/
theorem resolveHandle_setSlot_self (st : AgentState) (h : Nat) (slot : ConnectionSlot)
    (v : Option ConnectionSlot) (hres : resolveHandle st h = some slot) :
    resolveHandle (setSlot st h v) h = v := by
  have hlt := resolveHandle_lt_length st h slot hres
  unfold resolveHandle setSlot
  simp only [List.getD_eq_getElem?_getD]
  rw [List.getElem?_set_self (by simpa using hlt)]
  rfl

/-- Resending a pending-ack list on which every publish succeeds performs
exactly one client publish per entry, in order, and reports success. -/
theorem resendPending_all_success (client : ClientOracle) (h : Nat)
    (acks : List (Nat × Nat))
    (hall : ∀ a ∈ acks, client (ClientOp.publishOp h a.1 a.2) = MQTTStatus.Success) :
    resendPending client h acks =
      (MQTTStatus.Success,
        acks.map (fun a =>
          Event.clientCall (ClientOp.publishOp h a.1 a.2) MQTTStatus.Success)) := by
  induction acks with
  | nil => rfl
  | cons a rest ih =>
    have ha := hall a (List.mem_cons_self a rest)
    have hrest := fun b hb => hall b (List.mem_cons_of_mem a hb)
    simp [resendPending, ha, ih hrest]

/-- Resending a pending-ack list whose prefix succeeds and whose next entry
fails stops at the failing entry and reports its status. -/
theorem resendPending_abort (client : ClientOracle) (h : Nat)
    (pre : List (Nat × Nat)) (a : Nat × Nat) (post : List (Nat × Nat))
    (hpre : ∀ b ∈ pre, client (ClientOp.publishOp h b.1 b.2) = MQTTStatus.Success)
    (ha : client (ClientOp.publishOp h a.1 a.2) ≠ MQTTStatus.Success) :
    resendPending client h (pre ++ a :: post) =
      (client (ClientOp.publishOp h a.1 a.2),
        pre.map (fun b =>
          Event.clientCall (ClientOp.publishOp h b.1 b.2) MQTTStatus.Success) ++
        [Event.clientCall (ClientOp.publishOp h a.1 a.2)
          (client (ClientOp.publishOp h a.1 a.2))]) := by
  induction pre with
  | nil => simp [resendPending, ha]
  | cons b pre ih =>
    have hb := hpre b (List.mem_cons_self b pre)
    have hpre2 := fun x hx => hpre x (List.mem_cons_of_mem b hx)
    simp [resendPending, hb, ih hpre2]

/-- Re-subscribing a registry on which every subscribe succeeds performs
exactly one client subscribe per entry, in order, and reports success. -/
theorem resubscribeAll_all_success (client : ClientOracle) (h : Nat)
    (subs : List Subscription)
    (hall : ∀ s ∈ subs, client (ClientOp.subscribeOp h s.topicFilter) = MQTTStatus.Success) :
    resubscribeAll client h subs =
      (MQTTStatus.Success,
        subs.map (fun s =>
          Event.clientCall (ClientOp.subscribeOp h s.topicFilter) MQTTStatus.Success)) := by
  induction subs with
  | nil => rfl
  | cons s rest ih =>
    have hs := hall s (List.mem_cons_self s rest)
    have hrest := fun x hx => hall x (List.mem_cons_of_mem s hx)
    simp [resubscribeAll, hs, ih hrest]

/-- Re-subscribing a registry whose prefix succeeds and whose next entry fails
stops at the failing entry and reports its status. -/
theorem resubscribeAll_abort (client : ClientOracle) (h : Nat)
    (pre : List Subscription) (s : Subscription) (post : List Subscription)
    (hpre : ∀ x ∈ pre, client (ClientOp.subscribeOp h x.topicFilter) = MQTTStatus.Success)
    (hs : client (ClientOp.subscribeOp h s.topicFilter) ≠ MQTTStatus.Success) :
    resubscribeAll client h (pre ++ s :: post) =
      (client (ClientOp.subscribeOp h s.topicFilter),
        pre.map (fun x =>
          Event.clientCall (ClientOp.subscribeOp h x.topicFilter) MQTTStatus.Success) ++
        [Event.clientCall (ClientOp.subscribeOp h s.topicFilter)
          (client (ClientOp.subscribeOp h s.topicFilter))]) := by
  induction pre with
  | nil => simp [resubscribeAll, hs]
  | cons b pre ih =>
    have hb := hpre b (List.mem_cons_self b pre)
    have hpre2 := fun x hx => hpre x (List.mem_cons_of_mem b hx)
    simp [resubscribeAll, hb, ih hpre2]

/-- Claim C1: for every connection handle with an allocated slot, resuming the
session with sessionPresent = true leaves the agent state (in particular the
Subscription Registry for that handle) unchanged; when every resend succeeds,
it resends exactly the entries of the handle's Pending Acknowledgment Tracker
in their original insertion order; and when some resend fails, it aborts at the
first failing entry and returns that first error. -/
theorem resumeSession_present_resends_pending (client : ClientOracle)
    (st : AgentState) (h : Nat) (slot : ConnectionSlot)
    (hres : resolveHandle st h = some slot) :
    (resumeSession client st h true).2.1 = st ∧
    ((∀ a ∈ slot.pendingAcks, client (ClientOp.publishOp h a.1 a.2) = MQTTStatus.Success) →
      resumeSession client st h true =
        (MQTTStatus.Success, st,
          slot.pendingAcks.map (fun a =>
            Event.clientCall (ClientOp.publishOp h a.1 a.2) MQTTStatus.Success))) ∧
    (∀ pre a post, slot.pendingAcks = pre ++ a :: post →
      (∀ b ∈ pre, client (ClientOp.publishOp h b.1 b.2) = MQTTStatus.Success) →
      client (ClientOp.publishOp h a.1 a.2) ≠ MQTTStatus.Success →
      resumeSession client st h true =
        (client (ClientOp.publishOp h a.1 a.2), st,
          pre.map (fun b =>
            Event.clientCall (ClientOp.publishOp h b.1 b.2) MQTTStatus.Success) ++
          [Event.clientCall (ClientOp.publishOp h a.1 a.2)
            (client (ClientOp.publishOp h a.1 a.2))])) := by
  refine ⟨?_, ?_, ?_⟩
  · simp [resumeSession, hres]
  · intro hall
    simp [resumeSession, hres, resendPending_all_success client h slot.pendingAcks hall]
  · intro pre a post hsplit hpre ha
    simp [resumeSession, hres, hsplit, resendPending_abort client h pre a post hpre ha]

/-- Concrete run of claim C1's theorem: slot 0 of `stA` holds two pending acks
and resuming with a session present resends both, in order, changing nothing. -/
theorem resumeSession_present_resends_pending_witness :
    resolveHandle stA 0 = some slotA ∧
    (∀ a ∈ slotA.pendingAcks, okClient (ClientOp.publishOp 0 a.1 a.2) = MQTTStatus.Success) ∧
    resumeSession okClient stA 0 true =
      (MQTTStatus.Success, stA,
        slotA.pendingAcks.map (fun a =>
          Event.clientCall (ClientOp.publishOp 0 a.1 a.2) MQTTStatus.Success)) :=
  ⟨by decide, by decide,
    (resumeSession_present_resends_pending okClient stA 0 slotA (by decide)).2.1 (by decide)⟩

/-- Claim C2: for every connection handle with an allocated slot, resuming the
session with sessionPresent = false clears that handle's Pending Acknowledgment
Tracker; when every re-subscribe succeeds it re-issues a subscribe request for
exactly the entries of the handle's Subscription Registry at call time, in
order; and when some re-subscribe fails it aborts at the first failing entry
and returns that first error. -/
theorem resumeSession_absent_clears_and_resubscribes (client : ClientOracle)
    (st : AgentState) (h : Nat) (slot : ConnectionSlot)
    (hres : resolveHandle st h = some slot) :
    resolveHandle (resumeSession client st h false).2.1 h =
      some { slot with pendingAcks := [] } ∧
    ((∀ s ∈ slot.subscriptions,
        client (ClientOp.subscribeOp h s.topicFilter) = MQTTStatus.Success) →
      (resumeSession client st h false).1 = MQTTStatus.Success ∧
      (resumeSession client st h false).2.2 =
        slot.subscriptions.map (fun s =>
          Event.clientCall (ClientOp.subscribeOp h s.topicFilter) MQTTStatus.Success)) ∧
    (∀ pre s post, slot.subscriptions = pre ++ s :: post →
      (∀ x ∈ pre, client (ClientOp.subscribeOp h x.topicFilter) = MQTTStatus.Success) →
      client (ClientOp.subscribeOp h s.topicFilter) ≠ MQTTStatus.Success →
      (resumeSession client st h false).1 =
        client (ClientOp.subscribeOp h s.topicFilter) ∧
      (resumeSession client st h false).2.2 =
        pre.map (fun x =>
          Event.clientCall (ClientOp.subscribeOp h x.topicFilter) MQTTStatus.Success) ++
        [Event.clientCall (ClientOp.subscribeOp h s.topicFilter)
          (client (ClientOp.subscribeOp h s.topicFilter))]) := by
  refine ⟨?_, ?_, ?_⟩
  · simp only [resumeSession, hres]
    simpa using resolveHandle_setSlot_self st h slot
      (some { slot with pendingAcks := [] }) hres
  · intro hall
    simp [resumeSession, hres,
      resubscribeAll_all_success client h slot.subscriptions hall]
  · intro pre s post hsplit hpre hs
    simp [resumeSession, hres, hsplit,
      resubscribeAll_abort client h pre s post hpre hs]

/-- Concrete run of claim C2's theorem: resuming slot 0 of `stB` with no
session present empties its pending-ack set and re-issues its single
subscription. -/
theorem resumeSession_absent_clears_and_resubscribes_witness :
    resolveHandle stB 0 = some slotB ∧
    (∀ s ∈ slotB.subscriptions,
      okClient (ClientOp.subscribeOp 0 s.topicFilter) = MQTTStatus.Success) ∧
    resolveHandle (resumeSession okClient stB 0 false).2.1 0 =
      some { slotB with pendingAcks := [] } ∧
    (resumeSession okClient stB 0 false).2.2 =
      slotB.subscriptions.map (fun s =>
        Event.clientCall (ClientOp.subscribeOp 0 s.topicFilter) MQTTStatus.Success) :=
  ⟨by decide, by decide,
    (resumeSession_absent_clears_and_resubscribes okClient stB 0 slotB (by decide)).1,
    ((resumeSession_absent_clears_and_resubscribes okClient stB 0 slotB
        (by decide)).2.1 (by decide)).2⟩

/-- Claim C3 (counterexample): the timeout PROCESS_LOOP hands to the protocol
client is not caller-supplied.  In a concrete run the protocol client's service
step is invoked with the fixed compile-time constant
`MQTT_AGENT_PROCESS_LOOP_TIMEOUT_MS` (which is 0), and no invocation with any
other timeout exists; the `MQTTAgent_ProcessLoop` enqueue signature (mirrored
by `Command.processLoop`) has no timeout parameter at all. -/
theorem processLoop_timeout_is_fixed_counterexample :
    Event.clientCall (ClientOp.processLoopOp 0 MQTT_AGENT_PROCESS_LOOP_TIMEOUT_MS)
        MQTTStatus.Success ∈
      (dispatchCommand okClient stA (Command.processLoop 0 7 8)).events ∧
    MQTT_AGENT_PROCESS_LOOP_TIMEOUT_MS = 0 ∧
    ¬ ∃ t, t ≠ MQTT_AGENT_PROCESS_LOOP_TIMEOUT_MS ∧ ∃ s,
      Event.clientCall (ClientOp.processLoopOp 0 t) s ∈
        (dispatchCommand okClient stA (Command.processLoop 0 7 8)).events := by
  have hev : (dispatchCommand okClient stA (Command.processLoop 0 7 8)).events =
      [Event.clientCall (ClientOp.processLoopOp 0 0) MQTTStatus.Success,
       Event.callback 8 7 MQTTStatus.Success] := by decide
  refine ⟨by decide, rfl, ?_⟩
  rintro ⟨t, ht, s, hmem⟩
  rw [hev] at hmem
  simp only [List.mem_cons, List.not_mem_nil, or_false] at hmem
  rcases hmem with h1 | h1 <;> simp only [Event.clientCall.injEq,
    Event.callback.injEq, ClientOp.processLoopOp.injEq, reduceCtorEq,
    false_and, and_false] at h1
  exact ht h1.1.2

/-- Claim C3 (amended): when the agent loop runs a PROCESS_LOOP command for a
handle with an allocated slot, it invokes the protocol client's service step
with the fixed timeout `MQTT_AGENT_PROCESS_LOOP_TIMEOUT_MS`, and it
re-enqueues another PROCESS_LOOP command for the same connection. -/
theorem processLoop_fixed_timeout_rearm (client : ClientOracle) (st : AgentState)
    (h ctx cb : Nat) (slot : ConnectionSlot)
    (hres : resolveHandle st h = some slot) :
    (dispatchCommand client st (Command.processLoop h ctx cb)).events =
      [Event.clientCall (ClientOp.processLoopOp h MQTT_AGENT_PROCESS_LOOP_TIMEOUT_MS)
          (client (ClientOp.processLoopOp h MQTT_AGENT_PROCESS_LOOP_TIMEOUT_MS)),
       Event.callback cb ctx
          (client (ClientOp.processLoopOp h MQTT_AGENT_PROCESS_LOOP_TIMEOUT_MS))] ∧
    (dispatchCommand client st (Command.processLoop h ctx cb)).state.queue =
      st.queue ++ [Command.processLoop h ctx cb] := by
  constructor <;> simp [dispatchCommand, hres]

/-- Concrete run of claim C3's amended theorem: processing a PROCESS_LOOP
command on slot 0 of `stA` re-adds a PROCESS_LOOP command for handle 0. -/
theorem processLoop_fixed_timeout_rearm_witness :
    resolveHandle stA 0 = some slotA ∧
    (dispatchCommand okClient stA (Command.processLoop 0 7 8)).state.queue =
      stA.queue ++ [Command.processLoop 0 7 8] :=
  ⟨by decide, (processLoop_fixed_timeout_rearm okClient stA 0 7 8 slotA (by decide)).2⟩

/-- Enqueueing a sequence that fits under the capacity appends it in order. -/
theorem enqueueAll_linear (capacity : Nat) :
    ∀ (cs q : List Command), q.length + cs.length ≤ capacity →
      enqueueAll capacity q cs = q ++ cs := by
  intro cs
  induction cs with
  | nil => intro q _; simp [enqueueAll]
  | cons c cs ih =>
    intro q hq
    have hlt : q.length < capacity := by
      simp only [List.length_cons] at hq
      omega
    have hstep : (enqueueCmd capacity q c).2 = q ++ [c] := by
      simp [enqueueCmd, hlt]
    have htail : (q ++ [c]).length + cs.length ≤ capacity := by
      simp only [List.length_append, List.length_singleton]
      simp only [List.length_cons] at hq
      omega
    calc enqueueAll capacity q (c :: cs)
        = enqueueAll capacity (q ++ [c]) cs := by
          simp [enqueueAll, List.foldl_cons, hstep]
      _ = (q ++ [c]) ++ cs := ih (q ++ [c]) htail
      _ = q ++ c :: cs := by simp

/-- Draining dequeues every queued command, front first. -/
theorem drainQueue_eq_self : ∀ q : List Command, drainQueue q = q := by
  intro q
  induction q with
  | nil => rfl
  | cons c rest ih => simp [drainQueue, ih]

/-- Claim C5: for every sequence of enqueue calls that does not exceed the
command queue's capacity, the order in which the loop dequeues commands equals
the order in which they were enqueued (global FIFO). -/
theorem commandQueue_fifo_order (capacity : Nat) (cs : List Command)
    (hcap : cs.length ≤ capacity) :
    drainQueue (enqueueAll capacity [] cs) = cs := by
  rw [enqueueAll_linear capacity cs [] (by simpa using hcap),
    List.nil_append, drainQueue_eq_self]

/-- Concrete run of claim C5's theorem: two commands enqueued under a capacity
of five drain in enqueue order. -/
theorem commandQueue_fifo_order_witness :
    ([Command.ping 0 1 2, Command.terminate] : List Command).length ≤ 5 ∧
    drainQueue (enqueueAll 5 [] [Command.ping 0 1 2, Command.terminate]) =
      [Command.ping 0 1 2, Command.terminate] :=
  ⟨by decide,
    commandQueue_fifo_order 5 [Command.ping 0 1 2, Command.terminate] (by decide)⟩

/-- Claim C6: every operation referencing a handle that does not resolve (out
of range, or a freed/uninitialised slot) completes with the not-found status
and changes no agent state: dispatching any such command returns the state
unchanged with only a not-found completion callback, and resuming a session on
such a handle fails with not-found and changes nothing. -/
theorem invalid_handle_not_found (client : ClientOracle) (st : AgentState)
    (cmd : Command) (h : Nat) (hh : cmdHandle cmd = some h)
    (hres : resolveHandle st h = none) :
    (dispatchCommand client st cmd).state = st ∧
    (dispatchCommand client st cmd).events =
      [Event.callback (cmdCb cmd) (cmdCtx cmd) MQTTStatus.NotFound] ∧
    (∀ b, resumeSession client st h b = (MQTTStatus.NotFound, st, [])) := by
  have hresume : ∀ b, resumeSession client st h b = (MQTTStatus.NotFound, st, []) := by
    intro b
    simp [resumeSession, hres]
  cases cmd with
  | subscribe hd f pcb pctx cb ctx =>
    simp only [cmdHandle, Option.some.injEq] at hh
    subst hh
    exact ⟨by simp [dispatchCommand, hres], by simp [dispatchCommand, hres, cmdCb, cmdCtx],
      hresume⟩
  | unsubscribe hd f ctx cb =>
    simp only [cmdHandle, Option.some.injEq] at hh
    subst hh
    exact ⟨by simp [dispatchCommand, hres], by simp [dispatchCommand, hres, cmdCb, cmdCtx],
      hresume⟩
  | publish hd pid qos payload cb ctx =>
    simp only [cmdHandle, Option.some.injEq] at hh
    subst hh
    exact ⟨by simp [dispatchCommand, hres], by simp [dispatchCommand, hres, cmdCb, cmdCtx],
      hresume⟩
  | processLoop hd ctx cb =>
    simp only [cmdHandle, Option.some.injEq] at hh
    subst hh
    exact ⟨by simp [dispatchCommand, hres], by simp [dispatchCommand, hres, cmdCb, cmdCtx],
      hresume⟩
  | ping hd ctx cb =>
    simp only [cmdHandle, Option.some.injEq] at hh
    subst hh
    exact ⟨by simp [dispatchCommand, hres], by simp [dispatchCommand, hres, cmdCb, cmdCtx],
      hresume⟩
  | disconnect hd ctx cb =>
    simp only [cmdHandle, Option.some.injEq] at hh
    subst hh
    exact ⟨by simp [dispatchCommand, hres], by simp [dispatchCommand, hres, cmdCb, cmdCtx],
      hresume⟩
  | free hd ctx cb =>
    simp only [cmdHandle, Option.some.injEq] at hh
    subst hh
    exact ⟨by simp [dispatchCommand, hres], by simp [dispatchCommand, hres, cmdCb, cmdCtx],
      hresume⟩
  | terminate => simp [cmdHandle] at hh

/-- Concrete run of claim C6's theorem: handle 1 of `stA` points at a free
slot, and a PING referencing it completes with not-found, changing nothing. -/
theorem invalid_handle_not_found_witness :
    cmdHandle (Command.ping 1 3 4) = some 1 ∧
    resolveHandle stA 1 = none ∧
    (dispatchCommand okClient stA (Command.ping 1 3 4)).state = stA ∧
    (dispatchCommand okClient stA (Command.ping 1 3 4)).events =
      [Event.callback 4 3 MQTTStatus.NotFound] :=
  ⟨by decide, by decide,
    (invalid_handle_not_found okClient stA (Command.ping 1 3 4) 1 (by decide) (by decide)).1,
    (invalid_handle_not_found okClient stA (Command.ping 1 3 4) 1 (by decide) (by decide)).2.1⟩

/-- A packet identifier occurs in a pending-ack list exactly when the tracker's
membership test finds it. -/
theorem any_fst_eq_mem (l : List (Nat × Nat)) (q : Nat) :
    l.any (fun e => e.1 == q) = true ↔ q ∈ l.map Prod.fst := by
  simp [List.any_eq_true, List.mem_map]

/-- Erasing the entry with a given packet identifier from a duplicate-free
pending-ack list leaves no entry with that identifier. -/
theorem eraseP_fst_not_mem (l : List (Nat × Nat)) (q : Nat)
    (hnd : (l.map Prod.fst).Nodup) :
    q ∉ (l.eraseP (fun e => e.1 == q)).map Prod.fst := by
  induction l with
  | nil => simp
  | cons a t ih =>
    rw [List.map_cons, List.nodup_cons] at hnd
    by_cases hpa : a.1 = q
    · rw [List.eraseP_cons_of_pos (by simp [hpa])]
      rw [hpa] at hnd
      exact hnd.1
    · rw [List.eraseP_cons_of_neg (by simp [hpa])]
      simp only [List.map_cons, List.mem_cons]
      rintro (h | h)
      · exact hpa h.symm
      · exact ih hnd.2 h

/-- Claim C7: a QoS>0 publish on an allocated slot with room, whose
transmission succeeds, leaves its packet identifier in the handle's pending-ack
set (the entry is appended before transmission); acknowledging an identifier
present in a duplicate-free set leaves it absent; and acknowledging an
identifier not in the set reports not-found and leaves the set unchanged. -/
theorem pending_ack_lifecycle (client : ClientOracle) (st : AgentState)
    (h pid qos payload cb ctx : Nat) (slot : ConnectionSlot)
    (hres : resolveHandle st h = some slot) (hqos : qos ≠ 0)
    (hroom : slot.pendingAcks.length < PENDING_ACKS_MAX_SIZE)
    (_hok : client (ClientOp.publishOp h pid payload) = MQTTStatus.Success) :
    resolveHandle (dispatchCommand client st
        (Command.publish h pid qos payload cb ctx)).state h =
      some { slot with pendingAcks := slot.pendingAcks ++ [(pid, payload)] } ∧
    pid ∈ (slot.pendingAcks ++ [(pid, payload)]).map Prod.fst ∧
    (∀ (s : ConnectionSlot) (q : Nat), (s.pendingAcks.map Prod.fst).Nodup →
      q ∉ (acknowledge s q).2.pendingAcks.map Prod.fst) ∧
    (∀ (s : ConnectionSlot) (q : Nat), q ∉ s.pendingAcks.map Prod.fst →
      acknowledge s q = (AckResult.NotFound, s)) := by
  refine ⟨?_, by simp, ?_, ?_⟩
  · have hset := resolveHandle_setSlot_self st h slot
      (some { slot with pendingAcks := slot.pendingAcks ++ [(pid, payload)] }) hres
    simp only [dispatchCommand, hres]
    rw [if_neg hqos]
    simp only [track]
    rw [if_pos hroom]
    simpa using hset
  · intro s q hnd
    by_cases hany : s.pendingAcks.any (fun e => e.1 == q) = true
    · simp only [acknowledge, hany, if_pos]
      exact eraseP_fst_not_mem s.pendingAcks q hnd
    · simp only [acknowledge, hany]
      simp only [Bool.false_eq_true, if_false]
      intro hmem
      exact hany ((any_fst_eq_mem s.pendingAcks q).mpr hmem)
  · intro s q hmem
    have hany : s.pendingAcks.any (fun e => e.1 == q) = false := by
      by_contra hc
      exact hmem ((any_fst_eq_mem s.pendingAcks q).mp (by simpa using hc))
    simp [acknowledge, hany]

/-- Concrete run of claim C7's theorem: a QoS-1 publish with packet id 3 on
slot 0 of `stA` appends (3, 30) to the pending-ack set. -/
theorem pending_ack_lifecycle_witness :
    resolveHandle stA 0 = some slotA ∧ (1 : Nat) ≠ 0 ∧
    slotA.pendingAcks.length < PENDING_ACKS_MAX_SIZE ∧
    okClient (ClientOp.publishOp 0 3 30) = MQTTStatus.Success ∧
    resolveHandle (dispatchCommand okClient stA
        (Command.publish 0 3 1 30 5 6)).state 0 =
      some { slotA with pendingAcks := slotA.pendingAcks ++ [(3, 30)] } :=
  ⟨by decide, by decide, by decide, by decide,
    (pending_ack_lifecycle okClient stA 0 3 1 30 5 6 slotA
      (by decide) (by decide) (by decide) (by decide)).1⟩

/-- Claim C8: a QoS>0 publish on a handle whose pending-ack set already holds
`PENDING_ACKS_MAX_SIZE` (20) entries is rejected: the tracker reports full, the
completion callback receives a non-success status, nothing is transmitted, and
the agent state — in particular the pending-ack set — is unchanged. -/
theorem pending_ack_full_rejects (client : ClientOracle) (st : AgentState)
    (h pid qos payload cb ctx : Nat) (slot : ConnectionSlot)
    (hres : resolveHandle st h = some slot)
    (hfull : slot.pendingAcks.length = PENDING_ACKS_MAX_SIZE) (hqos : qos ≠ 0) :
    (dispatchCommand client st (Command.publish h pid qos payload cb ctx)).state = st ∧
    (dispatchCommand client st (Command.publish h pid qos payload cb ctx)).events =
      [Event.callback cb ctx MQTTStatus.NoMemory] ∧
    MQTTStatus.NoMemory ≠ MQTTStatus.Success ∧
    track slot pid payload = (TrackResult.Full, slot) := by
  have htr : track slot pid payload = (TrackResult.Full, slot) := by
    simp [track, hfull]
  refine ⟨?_, ?_, by decide, htr⟩ <;>
    · simp only [dispatchCommand, hres]
      rw [if_neg hqos]
      simp [htr]

/-- Concrete run of claim C8's theorem: slot 0 of `stFull` holds 20 pending
acks and a further QoS-1 publish is rejected without being tracked. -/
theorem pending_ack_full_rejects_witness :
    resolveHandle stFull 0 = some slotFull ∧
    slotFull.pendingAcks.length = PENDING_ACKS_MAX_SIZE ∧ (1 : Nat) ≠ 0 ∧
    (dispatchCommand okClient stFull (Command.publish 0 21 1 77 5 6)).state = stFull ∧
    (dispatchCommand okClient stFull (Command.publish 0 21 1 77 5 6)).events =
      [Event.callback 5 6 MQTTStatus.NoMemory] :=
  ⟨by decide, by decide, by decide,
    (pending_ack_full_rejects okClient stFull 0 21 1 77 5 6 slotFull
      (by decide) (by decide) (by decide)).1,
    (pending_ack_full_rejects okClient stFull 0 21 1 77 5 6 slotFull
      (by decide) (by decide) (by decide)).2.1⟩

/-- Claim C9: incoming-publish dispatch follows MQTT wildcard rules: with slot
0 subscribed to `sensors/+/temp` with callback 7 (context 70) and default
unknown-publish callback 9 (context 90), a publish on `sensors/7/temp` goes to
the subscription's callback, while a publish on `sensors/7/temp/extra` matches
no filter and goes to the default callback. -/
theorem wildcard_dispatch_scenario :
    topicMatches "sensors/+/temp" "sensors/7/temp" = true ∧
    topicMatches "sensors/+/temp" "sensors/7/temp/extra" = false ∧
    dispatchIncomingPublish stB 0 "sensors/7/temp" = some (7, 70) ∧
    dispatchIncomingPublish stB 0 "sensors/7/temp/extra" =
      some (slotB.defaultCallback, slotB.defaultContext) := by
  refine ⟨by decide, by decide, by decide, by decide⟩

/-- Dispatching a PUBLISH command never exits the loop, never touches the
queue, and always fires the command's completion callback with some status. -/
theorem dispatchCommand_publish_shape (client : ClientOracle) (st : AgentState)
    (c : Command) (hc : isPublishCmd c = true) :
    (dispatchCommand client st c).signal = LoopSignal.next ∧
    (dispatchCommand client st c).state.queue = st.queue ∧
    ∃ s, Event.callback (cmdCb c) (cmdCtx c) s ∈ (dispatchCommand client st c).events := by
  cases c
  case publish h pid qos payload cb ctx =>
    simp only [cmdCb, cmdCtx]
    cases hres : resolveHandle st h with
    | none =>
      refine ⟨?_, ?_, MQTTStatus.NotFound, ?_⟩ <;> simp [dispatchCommand, hres]
    | some slot =>
      by_cases hq : qos = 0
      · refine ⟨?_, ?_, client (ClientOp.publishOp h pid payload), ?_⟩ <;>
          simp [dispatchCommand, hres, hq]
      · by_cases hfull : (track slot pid payload).1 = TrackResult.Full
        · refine ⟨?_, ?_, MQTTStatus.NoMemory, ?_⟩ <;>
            simp [dispatchCommand, hres, hq, hfull]
        · refine ⟨?_, ?_, client (ClientOp.publishOp h pid payload), ?_⟩ <;>
            simp [dispatchCommand, hres, hq, hfull, setSlot]
  all_goals simp [isPublishCmd] at hc

/-- One loop step on a non-empty queue whose dispatched command says to keep
going: the loop recurses on the dispatch result and prepends its events. -/
theorem commandLoop_cons_next (client : ClientOracle) (n : Nat) (st : AgentState)
    (c : Command) (rest : List Command) (hq : st.queue = c :: rest)
    (hsig : (dispatchCommand client { st with queue := rest } c).signal =
      LoopSignal.next) :
    commandLoop client (n + 1) st =
      ((commandLoop client n (dispatchCommand client { st with queue := rest } c).state).1,
       (commandLoop client n (dispatchCommand client { st with queue := rest } c).state).2.1,
       (dispatchCommand client { st with queue := rest } c).events ++
         (commandLoop client n (dispatchCommand client { st with queue := rest } c).state).2.2) := by
  simp only [commandLoop, hq]
  rw [hsig]

/-- One loop step on a non-empty queue whose dispatched command says to exit
gracefully: the loop returns `terminated` with that dispatch's outcome. -/
theorem commandLoop_cons_exit (client : ClientOracle) (n : Nat) (st : AgentState)
    (c : Command) (rest : List Command) (hq : st.queue = c :: rest)
    (hsig : (dispatchCommand client { st with queue := rest } c).signal =
      LoopSignal.exitGraceful) :
    commandLoop client (n + 1) st =
      (LoopResult.terminated,
       (dispatchCommand client { st with queue := rest } c).state,
       (dispatchCommand client { st with queue := rest } c).events) := by
  simp only [commandLoop, hq]
  rw [hsig]

/-- Dispatching an unsubscribe command always tells the loop to exit. -/
theorem dispatchCommand_unsubscribe_exits (client : ClientOracle) (st : AgentState)
    (h : Nat) (f : String) (ctx cb : Nat) :
    (dispatchCommand client st (Command.unsubscribe h f ctx cb)).signal =
      LoopSignal.exitGraceful := by
  cases hres : resolveHandle st h <;> simp [dispatchCommand, hres]

/-- Dispatching an unsubscribe command leaves the queue untouched. -/
theorem dispatchCommand_unsubscribe_queue (client : ClientOracle) (st : AgentState)
    (h : Nat) (f : String) (ctx cb : Nat) :
    (dispatchCommand client st (Command.unsubscribe h f ctx cb)).state.queue =
      st.queue := by
  cases hres : resolveHandle st h <;> simp [dispatchCommand, hres, setSlot]

/-- Claim C4: with PUBLISH commands queued ahead of a TERMINATE command, the
loop dispatches every one of them — each completion callback fires among the
emitted events — exits when it dequeues TERMINATE, returns the graceful
`terminated` result (no failing context), and leaves every command queued after
TERMINATE undispatched in the queue. -/
theorem commandLoop_graceful_terminate (client : ClientOracle) :
    ∀ (q1 : List Command) (fuel : Nat) (st : AgentState) (q2 : List Command),
      st.queue = q1 ++ Command.terminate :: q2 →
      (∀ c ∈ q1, isPublishCmd c = true) →
      q1.length < fuel →
      (commandLoop client fuel st).1 = LoopResult.terminated ∧
      (commandLoop client fuel st).2.1.queue = q2 ∧
      (∀ c ∈ q1, ∃ s,
        Event.callback (cmdCb c) (cmdCtx c) s ∈ (commandLoop client fuel st).2.2) := by
  intro q1
  induction q1 with
  | nil =>
    intro fuel st q2 hq hpub hfuel
    cases fuel with
    | zero => omega
    | succ n =>
      simp only [List.nil_append] at hq
      rw [commandLoop_cons_exit client n st Command.terminate q2 hq rfl]
      exact ⟨rfl, rfl, by simp⟩
  | cons c q1 ih =>
    intro fuel st q2 hq hpub hfuel
    cases fuel with
    | zero => simp at hfuel
    | succ n =>
      have hc := hpub c (List.mem_cons_self c q1)
      have hpub2 := fun x hx => hpub x (List.mem_cons_of_mem c hx)
      have hq2 : st.queue = c :: (q1 ++ Command.terminate :: q2) := by
        simpa using hq
      obtain ⟨hsig, hqueue, s, hmem⟩ := dispatchCommand_publish_shape client
        { st with queue := q1 ++ Command.terminate :: q2 } c hc
      have hrec := ih n
        (dispatchCommand client { st with queue := q1 ++ Command.terminate :: q2 } c).state
        q2 (by rw [hqueue]) hpub2 (by simp only [List.length_cons] at hfuel; omega)
      rw [commandLoop_cons_next client n st c (q1 ++ Command.terminate :: q2) hq2 hsig]
      refine ⟨hrec.1, hrec.2.1, ?_⟩
      intro x hx
      rcases List.mem_cons.mp hx with hxc | hxq
      · subst hxc
        exact ⟨s, List.mem_append_left _ hmem⟩
      · obtain ⟨s2, hs2⟩ := hrec.2.2 x hxq
        exact ⟨s2, List.mem_append_right _ hs2⟩

/-- Concrete run of claim C4's theorem: three QoS-1 publishes queued ahead of
TERMINATE in `stQ` all complete, the loop returns the graceful result, and the
publish queued after TERMINATE stays undispatched. -/
theorem commandLoop_graceful_terminate_witness :
    stQ.queue = pubBatch ++ Command.terminate :: [Command.publish 0 4 1 14 104 204] ∧
    (∀ c ∈ pubBatch, isPublishCmd c = true) ∧
    pubBatch.length < 4 ∧
    (commandLoop okClient 4 stQ).1 = LoopResult.terminated ∧
    (commandLoop okClient 4 stQ).2.1.queue = [Command.publish 0 4 1 14 104 204] ∧
    (∀ c ∈ pubBatch, ∃ s,
      Event.callback (cmdCb c) (cmdCtx c) s ∈ (commandLoop okClient 4 stQ).2.2) :=
  ⟨rfl, by decide, by decide,
    (commandLoop_graceful_terminate okClient pubBatch 4 stQ
      [Command.publish 0 4 1 14 104 204] rfl (by decide) (by decide)).1,
    (commandLoop_graceful_terminate okClient pubBatch 4 stQ
      [Command.publish 0 4 1 14 104 204] rfl (by decide) (by decide)).2.1,
    (commandLoop_graceful_terminate okClient pubBatch 4 stQ
      [Command.publish 0 4 1 14 104 204] rfl (by decide) (by decide)).2.2⟩

/-- Claim C10: dequeuing an unsubscribe command makes the command loop exit —
gracefully, with the rest of the queue (which need not contain any TERMINATE)
left undispatched — so an UNSUBSCRIBE is a second, implicit exit condition of
`MQTTAgent_CommandLoop` in addition to TERMINATE. -/
theorem commandLoop_exits_on_unsubscribe (client : ClientOracle) (fuel : Nat)
    (st : AgentState) (h : Nat) (f : String) (ctx cb : Nat) (q2 : List Command)
    (hq : st.queue = Command.unsubscribe h f ctx cb :: q2) (hfuel : 0 < fuel) :
    (commandLoop client fuel st).1 = LoopResult.terminated ∧
    (commandLoop client fuel st).2.1.queue = q2 := by
  cases fuel with
  | zero => omega
  | succ n =>
    rw [commandLoop_cons_exit client n st (Command.unsubscribe h f ctx cb) q2 hq
      (dispatchCommand_unsubscribe_exits client { st with queue := q2 } h f ctx cb)]
    exact ⟨rfl,
      dispatchCommand_unsubscribe_queue client { st with queue := q2 } h f ctx cb⟩

/-- Concrete run of claim C10's theorem: the queue of `stU` starts with an
unsubscribe and contains no TERMINATE, yet the loop exits gracefully leaving
the trailing ping undispatched. -/
theorem commandLoop_exits_on_unsubscribe_witness :
    stU.queue = Command.unsubscribe 0 "topic" 5 6 :: [Command.ping 0 1 2] ∧
    (0 : Nat) < 3 ∧
    (commandLoop okClient 3 stU).1 = LoopResult.terminated ∧
    (commandLoop okClient 3 stU).2.1.queue = [Command.ping 0 1 2] :=
  ⟨rfl, by decide,
    (commandLoop_exits_on_unsubscribe okClient 3 stU 0 "topic" 5 6
      [Command.ping 0 1 2] rfl (by decide)).1,
    (commandLoop_exits_on_unsubscribe okClient 3 stU 0 "topic" 5 6
      [Command.ping 0 1 2] rfl (by decide)).2⟩

end MQTTAgent
